import Mathlib

/-!
Verification development for the Job_copilot pipeline core
(`app/agents/nodes.py`, `app/agents/graph.py`, `app/api/routes.py`).

Python text is modelled as `List Char`; the structured-response handling
(`strip`/`split("```")`/`json.loads`) is embedded operation by operation,
and each LangGraph node is a function from the shared state to an
`Except`-value together with the list of capability calls it made.
-/

namespace JobCopilot

abbrev Text := List Char

def txt (s : String) : Text := s.toList

/-- Whitespace characters removed by a Python `str.strip()` call (ASCII set). -/
def pyWs (c : Char) : Bool :=
  decide (c = ' ' ∨ c = '\t' ∨ c = '\n' ∨ c = '\r' ∨ c = '\x0b' ∨ c = '\x0c')

/-- Leading-whitespace removal, the left half of `str.strip()`. -/
def stripLead (l : Text) : Text := l.dropWhile pyWs

/-- Trailing-whitespace removal, the right half of `str.strip()`. -/
def stripTrail (l : Text) : Text := (l.reverse.dropWhile pyWs).reverse

/-- Python `str.strip()`. -/
def pyStrip (l : Text) : Text := stripTrail (stripLead l)

/-- The Markdown fence marker the nodes split on. -/
def fence : Text := txt "```"

/-- Engine for Python `str.split(sep)` with a non-empty separator.
The fuel argument only bounds recursion; `pySplit` supplies enough of it. -/
def splitGo (sep : Text) : Nat → Text → Text → List Text
  | _, [], acc => [acc.reverse]
  | 0, _ :: _, acc => [acc.reverse]
  | fuel+1, c :: rest, acc =>
    if sep.isPrefixOf (c :: rest) then
      acc.reverse :: splitGo sep fuel (List.drop sep.length (c :: rest)) []
    else
      splitGo sep fuel rest (c :: acc)

/-- Python `str.split(sep)` for a non-empty separator. -/
def pySplit (sep l : Text) : List Text := splitGo sep (l.length + 1) l []

/-- The markdown-fence stripping and final strip performed inside every
try block of each node before `json.loads` (nodes.py lines 46-53, 100-106, 270-276). -/
def normalize (content : Text) : Text :=
  let text := pyStrip content
  let text2 :=
    if fence.isPrefixOf text then
      let t1 := ((pySplit fence text).drop 1).headD []
      if (txt "json").isPrefixOf t1 then t1.drop 4 else t1
    else text
  pyStrip text2

/-- JSON values as produced by `json.loads`.  Numbers keep their source
lexeme (no floating-point semantics is needed by any claim); objects keep
the parsed key/value pairs in order, with dict lookup taking the last
binding of a duplicated key. -/
inductive Json where
  | null : Json
  | bool : Bool → Json
  | num : Text → Json
  | str : Text → Json
  | arr : List Json → Json
  | obj : List (Text × Json) → Json

/-- Whitespace skipped between JSON tokens by `json.loads`. -/
def jsonWs (c : Char) : Bool := decide (c = ' ' ∨ c = '\t' ∨ c = '\n' ∨ c = '\r')

def skipWs : Text → Text
  | [] => []
  | c :: r => if jsonWs c then skipWs r else c :: r

def hexVal (c : Char) : Option Nat :=
  if c.isDigit then some (c.toNat - 48)
  else if decide ('a' ≤ c) && decide (c ≤ 'f') then some (c.toNat - 87)
  else if decide ('A' ≤ c) && decide (c ≤ 'F') then some (c.toNat - 55)
  else none

/-- Single-character JSON string escapes. -/
def escChar : Char → Option Char
  | 'n' => some '\n'
  | 't' => some '\t'
  | 'r' => some '\r'
  | 'b' => some (Char.ofNat 8)
  | 'f' => some (Char.ofNat 12)
  | '"' => some '"'
  | '/' => some '/'
  | '\\' => some '\\'
  | _ => none

/-- Body of a JSON string literal after the opening quote; returns the
decoded characters and the remainder after the closing quote.  Surrogate
pairs written as two `\uXXXX` escapes are combined as `json.loads` does.
Every step consumes at least one character, so `length + 1` fuel suffices. -/
def parseStrGo : Nat → Text → Option (Text × Text)
  | _, [] => none
  | 0, _ :: _ => none
  | _+1, '"' :: r => some ([], r)
  | fuel+1, '\\' :: 'u' :: a :: b :: c :: d :: r =>
    (match hexVal a, hexVal b, hexVal c, hexVal d with
     | some ha, some hb, some hc, some hd =>
       let n := ((ha * 16 + hb) * 16 + hc) * 16 + hd
       if 55296 ≤ n && n < 56320 then
         match r with
         | '\\' :: 'u' :: a2 :: b2 :: c2 :: d2 :: r2 =>
           (match hexVal a2, hexVal b2, hexVal c2, hexVal d2 with
            | some h5, some h6, some h7, some h8 =>
              let m := ((h5 * 16 + h6) * 16 + h7) * 16 + h8
              if 56320 ≤ m && m < 57344 then
                (parseStrGo fuel r2).map
                  (fun pr => (Char.ofNat (65536 + (n - 55296) * 1024 + (m - 56320)) :: pr.1, pr.2))
              else (parseStrGo fuel r).map (fun pr => (Char.ofNat n :: pr.1, pr.2))
            | _, _, _, _ => (parseStrGo fuel r).map (fun pr => (Char.ofNat n :: pr.1, pr.2)))
         | _ => (parseStrGo fuel r).map (fun pr => (Char.ofNat n :: pr.1, pr.2))
       else (parseStrGo fuel r).map (fun pr => (Char.ofNat n :: pr.1, pr.2))
     | _, _, _, _ => none)
  | fuel+1, '\\' :: e :: r =>
    (match escChar e with
     | some c => (parseStrGo fuel r).map (fun pr => (c :: pr.1, pr.2))
     | none => none)
  | fuel+1, c :: r =>
    if c.toNat < 32 then none
    else (parseStrGo fuel r).map (fun pr => (c :: pr.1, pr.2))

/-- Body of a JSON string literal after the opening quote. -/
def parseStrBody (l : Text) : Option (Text × Text) := parseStrGo (l.length + 1) l

def lexDigits (l : Text) : Text × Text := (l.takeWhile Char.isDigit, l.dropWhile Char.isDigit)

/-- Optional fraction part of a JSON number (consumes nothing on failure). -/
def lexFrac : Text → Text × Text
  | '.' :: r =>
    (match lexDigits r with
     | ([], _) => ([], '.' :: r)
     | (ds, rest) => ('.' :: ds, rest))
  | l => ([], l)

/-- Optional exponent part of a JSON number (consumes nothing on failure). -/
def lexExp : Text → Text × Text
  | c :: r =>
    if c == 'e' || c == 'E' then
      match r with
      | s :: r2 =>
        if s == '+' || s == '-' then
          match lexDigits r2 with
          | ([], _) => ([], c :: r)
          | (ds, rest) => (c :: s :: ds, rest)
        else
          match lexDigits r with
          | ([], _) => ([], c :: r)
          | (ds, rest) => (c :: ds, rest)
      | [] => ([], [c])
    else ([], c :: r)
  | [] => ([], [])

/-- Integer part of a JSON number: `0` or a nonzero digit followed by digits. -/
def lexInt : Text → Option (Text × Text)
  | '0' :: r => some (['0'], r)
  | c :: r =>
    if c.isDigit then
      match lexDigits r with
      | (ds, rest) => some (c :: ds, rest)
    else none
  | [] => none

/-- A JSON number lexeme: the regex `-?(0|[1-9][0-9]*)(\.[0-9]+)?([eE][+-]?[0-9]+)?`. -/
def lexNumber (l : Text) : Option (Text × Text) :=
  match l with
  | '-' :: r =>
    (match lexInt r with
     | some (ip, rest) =>
       let fr := lexFrac rest
       let ex := lexExp fr.2
       some ('-' :: ip ++ fr.1 ++ ex.1, ex.2)
     | none => none)
  | _ =>
    match lexInt l with
    | some (ip, rest) =>
      let fr := lexFrac rest
      let ex := lexExp fr.2
      some (ip ++ fr.1 ++ ex.1, ex.2)
    | none => none

/-- Non-container JSON values: keywords, the special constants accepted by
`json.loads` (`NaN`, `Infinity`, `-Infinity`) and numbers. -/
def parseScalar (l : Text) : Option (Json × Text) :=
  if (txt "true").isPrefixOf l then some (Json.bool true, l.drop 4)
  else if (txt "false").isPrefixOf l then some (Json.bool false, l.drop 5)
  else if (txt "null").isPrefixOf l then some (Json.null, l.drop 4)
  else if (txt "NaN").isPrefixOf l then some (Json.num (txt "NaN"), l.drop 3)
  else if (txt "Infinity").isPrefixOf l then some (Json.num (txt "Infinity"), l.drop 8)
  else if (txt "-Infinity").isPrefixOf l then some (Json.num (txt "-Infinity"), l.drop 9)
  else (lexNumber l).map (fun pr => (Json.num pr.1, pr.2))

mutual

/-- One JSON value, preceded by optional whitespace. -/
def parseVal : Nat → Text → Option (Json × Text)
  | 0, _ => none
  | fuel+1, l =>
    match skipWs l with
    | '\x7b' :: r =>
      (match skipWs r with
       | '\x7d' :: r2 => some (Json.obj [], r2)
       | r2 => parseMembers fuel r2 [])
    | '[' :: r =>
      (match skipWs r with
       | ']' :: r2 => some (Json.arr [], r2)
       | r2 => parseElems fuel r2 [])
    | '"' :: r => (parseStrBody r).map (fun pr => (Json.str pr.1, pr.2))
    | r => parseScalar r

/-- Members of an object after the opening brace (at least one member). -/
def parseMembers : Nat → Text → List (Text × Json) → Option (Json × Text)
  | 0, _, _ => none
  | fuel+1, l, acc =>
    match l with
    | '"' :: r =>
      (match parseStrBody r with
       | some (k, r1) =>
         (match skipWs r1 with
          | ':' :: r2 =>
            (match parseVal fuel r2 with
             | some (v, r3) =>
               (match skipWs r3 with
                | ',' :: r4 => parseMembers fuel (skipWs r4) (acc ++ [(k, v)])
                | '\x7d' :: r4 => some (Json.obj (acc ++ [(k, v)]), r4)
                | _ => none)
             | none => none)
          | _ => none)
       | none => none)
    | _ => none

/-- Elements of an array after the opening bracket (at least one element). -/
def parseElems : Nat → Text → List Json → Option (Json × Text)
  | 0, _, _ => none
  | fuel+1, l, acc =>
    match parseVal fuel l with
    | some (v, r) =>
      (match skipWs r with
       | ',' :: r2 => parseElems fuel r2 (acc ++ [v])
       | ']' :: r2 => some (Json.arr (acc ++ [v]), r2)
       | _ => none)
    | none => none

end

/-- Python `json.loads`: parse one value and require only whitespace after it. -/
def json_loads (t : Text) : Option Json :=
  match parseVal (2 * t.length + 2) t with
  | some (j, rest) => if skipWs rest = [] then some j else none
  | none => none

/-- Exceptions the embedded node code can raise: Python `AttributeError`
(calling `.get` on a non-dict), `TypeError` (slicing or joining a value of
the wrong type), or an error raised by the Generator / Retriever capability. -/
inductive PyError where
  | attributeError : PyError
  | typeError : PyError
  | capError : Text → PyError

/-- Lookup in a parsed object with Python dict semantics: the last binding
of a duplicated key wins. -/
def objLookup (kvs : List (Text × Json)) (k : Text) : Option Json :=
  (kvs.reverse.find? (fun pr => decide (pr.1 = k))).map (fun pr => pr.2)

/-- Python `value.get(key, default)`: only dicts have `.get`; any other
value raises `AttributeError`. -/
def dictGet (j : Json) (k : Text) (dflt : Json) : Except PyError Json :=
  match j with
  | .obj kvs => .ok ((objLookup kvs k).getD dflt)
  | _ => .error .attributeError

/-- Python `value[:n]`: slices lists and strings, raises `TypeError` otherwise. -/
def pySliceTo (n : Nat) (j : Json) : Except PyError Json :=
  match j with
  | .arr xs => .ok (.arr (xs.take n))
  | .str s => .ok (.str (s.take n))
  | _ => .error .typeError

/-- Collect a list of JSON values all of which are strings. -/
def strListOf : List Json → Option (List Text)
  | [] => some []
  | .str s :: r => (strListOf r).map (fun ts => s :: ts)
  | _ :: _ => none

/-- Python `sep.join(value)`: joins an iterable of strings (a list of
strings, the characters of a string, or the keys of a dict). -/
def pyJoin (sep : Text) (j : Json) : Except PyError Text :=
  match j with
  | .arr xs =>
    (match strListOf xs with
     | some ts => .ok (List.intercalate sep ts)
     | none => .error .typeError)
  | .str s => .ok (List.intercalate sep (s.map (fun c => [c])))
  | .obj kvs => .ok (List.intercalate sep (kvs.map (fun pr => pr.1)))
  | _ => .error .typeError

/-- Python `value + value` as used for the question lists. -/
def pyAdd (a b : Json) : Except PyError Json :=
  match a, b with
  | .arr xs, .arr ys => .ok (.arr (xs ++ ys))
  | .str s, .str t => .ok (.str (s ++ t))
  | _, _ => .error .typeError

/-- Python `str(value)` as used when a JSON field is interpolated into an
f-string query (exact for strings, numbers and the constants; containers
are abbreviated). -/
def pyStr : Json → Text
  | .null => txt "None"
  | .bool true => txt "True"
  | .bool false => txt "False"
  | .num lex => lex
  | .str s => s
  | .arr _ => txt "[...]"
  | .obj _ => txt "\x7b...\x7d"

/-- Python truthiness, as used by `if final_state.get("error"):` in
`routes.py`. -/
def jsonTruthy : Json → Bool
  | .null => false
  | .bool b => b
  | .num lex => !(lex = txt "0" || lex = txt "-0")
  | .str s => !s.isEmpty
  | .arr xs => !xs.isEmpty
  | .obj kvs => !kvs.isEmpty

/-- The `GraphState` TypedDict of `graph.py`.  Fields that receive parsed
generation output hold arbitrary JSON values, since the Python dict is not
runtime-checked. -/
structure GraphState where
  job_description : Text
  resume_text : Text
  parsed_jd : Json
  matched_skills : Json
  missing_skills : Json
  match_score : Json
  cover_letter : Text
  email_draft : Text
  interview_questions : Json
  prep_tips : Json
  error : Json
  current_step : Text

/-- The argument dict each stage passes to `chain.invoke` (the template
variables; prompt wording itself is out of scope per the spec). -/
inductive PromptInput where
  | parseJD : Text → PromptInput
  | skillGap : Json → Text → PromptInput
  | coverLetter : Json → Json → Text → Text → Text → Text → PromptInput
  | email : Json → Json → Json → Text → Text → PromptInput
  | interviewPrep : Json → Json → Json → Text → PromptInput

/-- One call to an external capability, recorded in order. -/
inductive CapCall where
  | generate : PromptInput → CapCall
  | retrieve : Text → Nat → CapCall

/-- The two external capabilities: the Generator (`chain.invoke`) and the
Retriever (`retrieve_resume_context`), each of which may raise. -/
structure Caps where
  generate : PromptInput → Except PyError Text
  retrieve_resume_context : Text → Nat → Except PyError Text

/-- Default payload of the Parse-JD stage (nodes.py lines 55-62). -/
def defaultParseJD : Json :=
  Json.obj
    [ (txt "job_title", Json.str (txt "Unknown"))
    , (txt "company", Json.str (txt "Unknown"))
    , (txt "skills_required", Json.arr [])
    , (txt "responsibilities", Json.arr [])
    , (txt "experience_years", Json.str (txt "Unknown"))
    , (txt "location", Json.str (txt "Unknown")) ]

/-- Default payload of the Skill-Gap stage (nodes.py lines 108-113); its
`missing_skills` is the full required-skill list. -/
def defaultSkillGap (required_skills : Json) : Json :=
  Json.obj
    [ (txt "matched_skills", Json.arr [])
    , (txt "missing_skills", required_skills)
    , (txt "match_score", Json.num (txt "0"))
    , (txt "summary", Json.str (txt "Could not analyze.")) ]

/-- Default payload of the Interview-Prep stage (nodes.py lines 278-282). -/
def defaultInterviewPrep : Json :=
  Json.obj
    [ (txt "technical_questions", Json.arr [])
    , (txt "behavioral_questions", Json.arr [])
    , (txt "prep_tips", Json.str (txt "Focus on your experience with the matched skills.")) ]

abbrev NodeResult := Except PyError (GraphState × List CapCall)

/-- Node 1: Parse Job Description (nodes.py lines 25-64).  One Generator
call, no retrieval; on `json.loads` failure the default payload is used,
and a successfully parsed non-object is stored as-is. -/
def parse_jd_node (caps : Caps) (state : GraphState) : NodeResult :=
  match caps.generate (.parseJD state.job_description) with
  | .error e => .error e
  | .ok content =>
    let parsed := (json_loads (normalize content)).getD defaultParseJD
    .ok ({ state with parsed_jd := parsed, current_step := txt "jd_parsed" },
         [.generate (.parseJD state.job_description)])

/-- The retrieval query built by the Skill-Gap stage (nodes.py line 75)
from the first five required skills, space-joined after the fixed
"skills experience " prefix. -/
def skill_gap_query (required_skills : Json) : Except PyError Text :=
  match pySliceTo 5 required_skills with
  | .error e => .error e
  | .ok sliced =>
    match pyJoin (txt " ") sliced with
    | .error e => .error e
    | .ok joined => .ok (txt "skills experience " ++ joined)

/-- Node 2: Skill Gap Analysis (nodes.py lines 69-121).  One retrieval
(`k = 5`), one Generator call; the parse fallback keeps the full required
skill list as `missing_skills`; the `.get` reads after parsing raise
`AttributeError` when the parsed top level is not an object. -/
def skill_gap_node (caps : Caps) (state : GraphState) : NodeResult :=
  match dictGet state.parsed_jd (txt "skills_required") (Json.arr []) with
  | .error e => .error e
  | .ok required_skills =>
    match skill_gap_query required_skills with
    | .error e => .error e
    | .ok query =>
      match caps.retrieve_resume_context query 5 with
      | .error e => .error e
      | .ok resume_context =>
        match caps.generate (.skillGap required_skills resume_context) with
        | .error e => .error e
        | .ok content =>
          let result := (json_loads (normalize content)).getD (defaultSkillGap required_skills)
          match dictGet result (txt "matched_skills") (Json.arr []) with
          | .error e => .error e
          | .ok matched =>
            match dictGet result (txt "missing_skills") (Json.arr []) with
            | .error e => .error e
            | .ok missing =>
              match dictGet result (txt "match_score") (Json.num (txt "0")) with
              | .error e => .error e
              | .ok score =>
                .ok ({ state with
                        matched_skills := matched
                      , missing_skills := missing
                      , match_score := score
                      , current_step := txt "skills_analyzed" },
                     [ .retrieve query 5
                     , .generate (.skillGap required_skills resume_context) ])

/-- Node 3: Generate Cover Letter (nodes.py lines 126-190).  Two retrieval
calls (experience, then contact info), one Generator call; the output text
is stored verbatim. -/
def cover_letter_node (caps : Caps) (state : GraphState) : NodeResult :=
  match dictGet state.parsed_jd (txt "job_title") (Json.str []) with
  | .error e => .error e
  | .ok jt_for_query =>
    let query1 := pyStr jt_for_query ++ txt " experience projects achievements"
    match caps.retrieve_resume_context query1 5 with
    | .error e => .error e
    | .ok resume_context =>
      match caps.retrieve_resume_context (txt "name address phone email contact location") 5 with
      | .error e => .error e
      | .ok contact_context =>
        match dictGet state.parsed_jd (txt "job_title") (Json.str []) with
        | .error e => .error e
        | .ok job_title =>
          match dictGet state.parsed_jd (txt "company") (Json.str []) with
          | .error e => .error e
          | .ok company =>
            match pyJoin (txt ", ") state.matched_skills with
            | .error e => .error e
            | .ok matchedJoined =>
              match pyJoin (txt ", ") state.missing_skills with
              | .error e => .error e
              | .ok missingJoined =>
                match caps.generate
                    (.coverLetter job_title company matchedJoined missingJoined
                      contact_context resume_context) with
                | .error e => .error e
                | .ok content =>
                  .ok ({ state with
                          cover_letter := content
                        , current_step := txt "cover_letter_done" },
                       [ .retrieve query1 5
                       , .retrieve (txt "name address phone email contact location") 5
                       , .generate (.coverLetter job_title company matchedJoined
                           missingJoined contact_context resume_context) ])

/-- Node 4: Generate Application Email (nodes.py lines 195-239).  One
retrieval call for contact info, one Generator call; output stored verbatim. -/
def email_node (caps : Caps) (state : GraphState) : NodeResult :=
  match caps.retrieve_resume_context (txt "name address phone email contact") 5 with
  | .error e => .error e
  | .ok contact_context =>
    match dictGet state.parsed_jd (txt "job_title") (Json.str []) with
    | .error e => .error e
    | .ok job_title =>
      match dictGet state.parsed_jd (txt "company") (Json.str []) with
      | .error e => .error e
      | .ok company =>
        match pySliceTo 5 state.matched_skills with
        | .error e => .error e
        | .ok slicedSkills =>
          match pyJoin (txt ", ") slicedSkills with
          | .error e => .error e
          | .ok skillsJoined =>
            match caps.generate
                (.email job_title company state.match_score skillsJoined contact_context) with
            | .error e => .error e
            | .ok content =>
              .ok ({ state with
                      email_draft := content
                    , current_step := txt "email_done" },
                   [ .retrieve (txt "name address phone email contact") 5
                   , .generate (.email job_title company state.match_score
                       skillsJoined contact_context) ])

/-- Node 5: Interview Prep (nodes.py lines 243-294).  No retrieval, one
Generator call; `interview_questions` is the technical list concatenated
with the behavioral list. -/
def interview_prep_node (caps : Caps) (state : GraphState) : NodeResult :=
  match dictGet state.parsed_jd (txt "job_title") (Json.str []) with
  | .error e => .error e
  | .ok job_title =>
    match dictGet state.parsed_jd (txt "company") (Json.str []) with
    | .error e => .error e
    | .ok company =>
      match dictGet state.parsed_jd (txt "responsibilities") (Json.arr []) with
      | .error e => .error e
      | .ok resp =>
        match pySliceTo 4 resp with
        | .error e => .error e
        | .ok respSliced =>
          match pySliceTo 5 state.missing_skills with
          | .error e => .error e
          | .ok missSliced =>
            match pyJoin (txt ", ") missSliced with
            | .error e => .error e
            | .ok missJoined =>
              match caps.generate (.interviewPrep job_title company respSliced missJoined) with
              | .error e => .error e
              | .ok content =>
                let result := (json_loads (normalize content)).getD defaultInterviewPrep
                match dictGet result (txt "technical_questions") (Json.arr []) with
                | .error e => .error e
                | .ok tech =>
                  match dictGet result (txt "behavioral_questions") (Json.arr []) with
                  | .error e => .error e
                  | .ok behav =>
                    match pyAdd tech behav with
                    | .error e => .error e
                    | .ok all_questions =>
                      match dictGet result (txt "prep_tips") (Json.str []) with
                      | .error e => .error e
                      | .ok tips =>
                        .ok ({ state with
                                interview_questions := all_questions
                              , prep_tips := tips
                              , current_step := txt "complete" },
                             [.generate (.interviewPrep job_title company respSliced missJoined)])

/-- Sentinel name of the LangGraph END node. -/
def endNode : String := "__end__"

/-- The nodes registered by `build_graph` (graph.py lines 33-37). -/
def graph_nodes : List (String × (Caps → GraphState → NodeResult)) :=
  [ ("step_parse_jd", parse_jd_node)
  , ("step_skill_gap", skill_gap_node)
  , ("step_cover_letter", cover_letter_node)
  , ("step_email", email_node)
  , ("step_interview_prep", interview_prep_node) ]

/-- The edges added by `build_graph` (graph.py lines 40-44). -/
def graph_edges : List (String × String) :=
  [ ("step_parse_jd", "step_skill_gap")
  , ("step_skill_gap", "step_cover_letter")
  , ("step_cover_letter", "step_email")
  , ("step_email", "step_interview_prep")
  , ("step_interview_prep", "__end__") ]

/-- The entry point set by `build_graph` (graph.py line 39). -/
def entry_point : String := "step_parse_jd"

def next_node (n : String) : Option String :=
  (graph_edges.find? (fun e => e.1 == n)).map (fun e => e.2)

/-- Follow the single outgoing edge of each node from a start node until
`END` is reached (how the compiled LangGraph executes a linear chain). -/
def traverse : Nat → String → List String
  | 0, _ => []
  | fuel+1, n =>
    if n == endNode then []
    else
      n :: (match next_node n with
            | some m => traverse fuel m
            | none => [])

/-- The execution order of the compiled graph, computed from the edges. -/
def stage_order : List String := traverse (graph_edges.length + 1) entry_point

def node_fn (n : String) : Option (Caps → GraphState → NodeResult) :=
  (graph_nodes.find? (fun pr => pr.1 == n)).map (fun pr => pr.2)

/-- Execute a list of graph nodes in order, threading the state and
concatenating the capability-call traces; a raising node aborts the run. -/
def run_nodes (caps : Caps) : List String → GraphState → NodeResult
  | [], s => .ok (s, [])
  | n :: rest, s =>
    match node_fn n with
    | none => .error (.capError (txt "unknown node"))
    | some f =>
      match f caps s with
      | .error e => .error e
      | .ok (s1, t1) =>
        match run_nodes caps rest s1 with
        | .error e => .error e
        | .ok (s2, t2) => .ok (s2, t1 ++ t2)

/-- The initial state constructed by `run_pipeline` (graph.py lines 52-65). -/
def initial_state (job_description resume_text : Text) : GraphState :=
  { job_description := job_description
  , resume_text := resume_text
  , parsed_jd := Json.obj []
  , matched_skills := Json.arr []
  , missing_skills := Json.arr []
  , match_score := Json.num (txt "0")
  , cover_letter := []
  , email_draft := []
  , interview_questions := Json.arr []
  , prep_tips := Json.str []
  , error := Json.null
  , current_step := txt "start" }

/-- The run_pipeline entry point (graph.py lines 49-67): build the graph, construct the
initial state, and invoke the compiled chain. -/
def run_pipeline (caps : Caps) (job_description resume_text : Text) : NodeResult :=
  run_nodes caps stage_order (initial_state job_description resume_text)

/-- The explicit sequential composition Parse-JD, Skill-Gap, Cover-Letter,
Email, Interview-Prep, with a stage failure aborting the run. -/
def chained_run (caps : Caps) (jd rt : Text) : NodeResult :=
  match parse_jd_node caps (initial_state jd rt) with
  | .error e => .error e
  | .ok (s1, t1) =>
    match skill_gap_node caps s1 with
    | .error e => .error e
    | .ok (s2, t2) =>
      match cover_letter_node caps s2 with
      | .error e => .error e
      | .ok (s3, t3) =>
        match email_node caps s3 with
        | .error e => .error e
        | .ok (s4, t4) =>
          match interview_prep_node caps s4 with
          | .error e => .error e
          | .ok (s5, t5) => .ok (s5, t1 ++ (t2 ++ (t3 ++ (t4 ++ (t5 ++ [])))))

/-! ### Concrete witness data: a generator that always answers with an
empty JSON object and a retriever that returns empty context. -/

def wCaps : Caps :=
  { generate := fun _ => .ok (txt "\x7b\x7d")
  , retrieve_resume_context := fun _ _ => .ok [] }

def w0 : GraphState := initial_state (txt "jd") []

def w1 : GraphState := { w0 with parsed_jd := Json.obj [], current_step := txt "jd_parsed" }

def w2 : GraphState := { w1 with current_step := txt "skills_analyzed" }

def w3 : GraphState :=
  { w2 with cover_letter := txt "\x7b\x7d", current_step := txt "cover_letter_done" }

def w4 : GraphState :=
  { w3 with email_draft := txt "\x7b\x7d", current_step := txt "email_done" }

def w5 : GraphState := { w4 with current_step := txt "complete" }

def wtr1 : List CapCall := [.generate (.parseJD (txt "jd"))]

def wtr2 : List CapCall :=
  [.retrieve (txt "skills experience ") 5, .generate (.skillGap (Json.arr []) [])]

def wtr3 : List CapCall :=
  [ .retrieve (txt " experience projects achievements") 5
  , .retrieve (txt "name address phone email contact location") 5
  , .generate (.coverLetter (Json.str []) (Json.str []) [] [] [] []) ]

def wtr4 : List CapCall :=
  [ .retrieve (txt "name address phone email contact") 5
  , .generate (.email (Json.str []) (Json.str []) (Json.num (txt "0")) [] []) ]

def wtr5 : List CapCall := [.generate (.interviewPrep (Json.str []) (Json.str []) (Json.arr []) [])]

/-- Full capability-call trace of the witness run. -/
def wtrAll : List CapCall := wtr1 ++ (wtr2 ++ (wtr3 ++ (wtr4 ++ (wtr5 ++ []))))

/-- Decode a number lexeme consisting only of digits (optionally signed)
into an integer; `none` for any other lexeme. -/
def lexToNat (l : Text) : Option Nat :=
  if l = [] then none
  else if l.all Char.isDigit then
    some (l.foldl (fun acc c => acc * 10 + (c.toNat - 48)) 0)
  else none

def lexToInt : Text → Option Int
  | '-' :: r => (lexToNat r).map (fun n => -(n : Int))
  | l => (lexToNat l).map (fun n => (n : Int))

/-- Whether a JSON value is an integer lying in `[0, 100]`. -/
def jsonIntIn0to100 (j : Json) : Bool :=
  match j with
  | .num lex =>
    (match lexToInt lex with
     | some n => decide (0 ≤ n ∧ n ≤ 100)
     | none => false)
  | _ => false

/-- A generator that always answers with the JSON array `[1, 2]`. -/
def c1caps : Caps :=
  { generate := fun _ => .ok (txt "[1, 2]")
  , retrieve_resume_context := fun _ _ => .ok [] }

def c1s1 : GraphState :=
  { w0 with parsed_jd := Json.arr [Json.num (txt "1"), Json.num (txt "2")],
            current_step := txt "jd_parsed" }

/-- A generator that always answers with non-JSON prose. -/
def proseCaps : Caps :=
  { generate := fun _ => .ok (txt "Sorry, I cannot help with that.")
  , retrieve_resume_context := fun _ _ => .ok [] }

/-- A generator that always answers with `{"match_score": 150}`. -/
def c2caps : Caps :=
  { generate := fun _ => .ok (txt "\x7b\"match_score\": 150\x7d")
  , retrieve_resume_context := fun _ _ => .ok [] }

def c2kvs : List (Text × Json) := [(txt "match_score", Json.num (txt "150"))]

def c2s1 : GraphState :=
  { w0 with parsed_jd := Json.obj c2kvs, current_step := txt "jd_parsed" }

def c3state : GraphState :=
  { w0 with
      parsed_jd := Json.obj
        [(txt "skills_required", Json.arr [Json.str (txt "Go"), Json.str (txt "SQL")])],
      current_step := txt "jd_parsed" }

/-- The payload of the C7 counterexample: a valid JSON object whose string
value contains the fence marker. -/
def c7payload : Text := txt "\x7b\"a\": \"x```y\"\x7d"

/-- The backtick character (written via its code point). -/
def bt : Char := Char.ofNat 96

/-- True when `p` contains no occurrence of the fence marker. -/
def noFenceB (p : Text) : Bool :=
  (List.range p.length).all (fun i => !(fence.isPrefixOf (p.drop i)))

/-- A payload wrapped in a fenced block with a `json` tag. -/
def wrapTagged (p : Text) : Text := txt "```json\n" ++ p ++ txt "\n```"

/-- A payload wrapped in a plain fenced block. -/
def wrapPlain (p : Text) : Text := txt "```\n" ++ p ++ txt "\n```"

def c7ts : List Json :=
  [Json.str (txt "t1"), Json.str (txt "t2"), Json.str (txt "t3"),
   Json.str (txt "t4"), Json.str (txt "t5")]

def c7bs : List Json := [Json.str (txt "b1"), Json.str (txt "b2"), Json.str (txt "b3")]

def c7kvs : List (Text × Json) :=
  [ (txt "technical_questions", Json.arr c7ts)
  , (txt "behavioral_questions", Json.arr c7bs)
  , (txt "prep_tips", Json.str (txt "tip")) ]

def c7resp : Text :=
  txt "\x7b\"technical_questions\": [\"t1\", \"t2\", \"t3\", \"t4\", \"t5\"], \"behavioral_questions\": [\"b1\", \"b2\", \"b3\"], \"prep_tips\": \"tip\"\x7d"

def c7caps : Caps :=
  { generate := fun _ => .ok c7resp
  , retrieve_resume_context := fun _ _ => .ok [] }

def c7p0 : Text := txt "\x7b\"a\": 1\x7d"

theorem fence_eq : fence = [bt, bt, bt] := rfl

theorem stripLead_cons_not {c : Char} (x : Text) (h : pyWs c = false) :
    stripLead (c :: x) = c :: x := by
  simp [stripLead, List.dropWhile, h]

theorem stripLead_cons_ws {c : Char} (x : Text) (h : pyWs c = true) :
    stripLead (c :: x) = stripLead x := by
  simp [stripLead, List.dropWhile, h]

theorem stripTrail_append_not (x : Text) {c : Char} (h : pyWs c = false) :
    stripTrail (x ++ [c]) = x ++ [c] := by
  simp [stripTrail, List.dropWhile, h]

theorem stripTrail_append_ws (x : Text) {c : Char} (h : pyWs c = true) :
    stripTrail (x ++ [c]) = stripTrail x := by
  simp [stripTrail, List.dropWhile, h]

theorem stripLead_append_of_eq_nil {p : Text} (q : Text) (h : stripLead p = []) :
    stripLead (p ++ q) = stripLead q := by
  induction p with
  | nil => rfl
  | cons c r ih =>
    by_cases hc : pyWs c
    · rw [List.cons_append, stripLead_cons_ws _ hc]
      exact ih (by rwa [stripLead_cons_ws _ hc] at h)
    · rw [stripLead_cons_not _ (by simpa using hc)] at h
      exact absurd h (by simp)

theorem stripLead_append_of_ne_nil {p : Text} (q : Text) (h : stripLead p ≠ []) :
    stripLead (p ++ q) = stripLead p ++ q := by
  induction p with
  | nil => exact absurd rfl h
  | cons c r ih =>
    by_cases hc : pyWs c
    · rw [List.cons_append, stripLead_cons_ws _ hc, stripLead_cons_ws _ hc]
      exact ih (by rwa [stripLead_cons_ws _ hc] at h)
    · rw [List.cons_append, stripLead_cons_not _ (by simpa using hc),
        stripLead_cons_not _ (by simpa using hc)]
      rfl

/-- Stripping the sandwich `"\n" ++ p ++ "\n"` equals stripping `p`. -/
theorem pyStrip_sandwich (p : Text) : pyStrip ('\n' :: (p ++ ['\n'])) = pyStrip p := by
  unfold pyStrip
  rw [stripLead_cons_ws _ (by rfl)]
  by_cases h : stripLead p = []
  · rw [stripLead_append_of_eq_nil _ h, h]
    rw [show stripLead ['\n'] = [] from rfl]
  · rw [stripLead_append_of_ne_nil _ h, stripTrail_append_ws _ (by rfl)]

theorem stripLead_head {l : Text} {c : Char} {t : Text} (h : stripLead l = c :: t) :
    pyWs c = false := by
  induction l with
  | nil => exact absurd h (by simp [stripLead])
  | cons a r ih =>
    by_cases ha : pyWs a
    · exact ih (by rwa [stripLead_cons_ws _ ha] at h)
    · rw [stripLead_cons_not _ (by simpa using ha)] at h
      cases h
      simpa using ha

theorem stripTrail_prefix (m : Text) : ∃ w, m = stripTrail m ++ w := by
  refine ⟨(m.reverse.takeWhile pyWs).reverse, ?_⟩
  unfold stripTrail
  rw [← List.reverse_append, List.takeWhile_append_dropWhile, List.reverse_reverse]

theorem dropWhile_pyWs_idem (x : Text) :
    List.dropWhile pyWs (List.dropWhile pyWs x) = List.dropWhile pyWs x := by
  induction x with
  | nil => rfl
  | cons a r ih =>
    by_cases ha : pyWs a
    · simpa [List.dropWhile, ha] using ih
    · simp [List.dropWhile, ha]

theorem stripTrail_idem (m : Text) : stripTrail (stripTrail m) = stripTrail m := by
  unfold stripTrail
  rw [List.reverse_reverse, dropWhile_pyWs_idem]

theorem stripLead_stripTrail_of_stripLead (l : Text) :
    stripLead (stripTrail (stripLead l)) = stripTrail (stripLead l) := by
  obtain ⟨w, hw⟩ := stripTrail_prefix (stripLead l)
  cases e : stripTrail (stripLead l) with
  | nil => rfl
  | cons c t =>
    have hc : pyWs c = false := by
      apply stripLead_head (l := l)
      rw [e] at hw
      calc stripLead l = stripLead l := rfl
      _ = c :: (t ++ w) := by rw [hw]; simp
    exact stripLead_cons_not _ hc

theorem pyStrip_idem (l : Text) : pyStrip (pyStrip l) = pyStrip l := by
  unfold pyStrip
  rw [stripLead_stripTrail_of_stripLead, stripTrail_idem]

theorem exists_append_of_getLast? {l : Text} {d : Char} (h : l.getLast? = some d) :
    ∃ x, l = x ++ [d] := by
  induction l with
  | nil => cases h
  | cons a r ih =>
    cases r with
    | nil =>
      refine ⟨[], ?_⟩
      simpa using h
    | cons b r2 =>
      obtain ⟨x, hx⟩ := ih (by simpa [List.getLast?] using h)
      exact ⟨a :: x, by rw [List.cons_append, ← hx]⟩

/-- A list with a non-whitespace head and a non-whitespace last element is
unchanged by `pyStrip`. -/
theorem pyStrip_of_clean_ends {l : Text} {c d : Char}
    (hh : l.head? = some c) (hc : pyWs c = false)
    (hl : l.getLast? = some d) (hd : pyWs d = false) :
    pyStrip l = l := by
  cases l with
  | nil => cases hh
  | cons a r =>
    have ha : a = c := by simpa using hh
    subst ha
    unfold pyStrip
    rw [stripLead_cons_not _ hc]
    obtain ⟨x, hx⟩ := exists_append_of_getLast? hl
    rw [hx, stripTrail_append_not _ hd]

theorem fence_isPrefixOf_append (m : Text) : fence.isPrefixOf (fence ++ m) = true := by
  rw [fence_eq]
  simp [List.isPrefixOf]

theorem fence_not_isPrefixOf_nil : fence.isPrefixOf ([] : Text) = false := rfl

/-- Core lemma about Python split: splitting `u ++ "```"` when no fence
occurrence starts inside `u` yields the piece `u` and an empty tail piece. -/
theorem splitGo_append_fence (u : Text) :
    ∀ (fuel : Nat) (acc : Text),
      (∀ i, i < u.length → fence.isPrefixOf (u.drop i ++ fence) = false) →
      u.length < fuel →
      splitGo fence fuel (u ++ fence) acc = [acc.reverse ++ u, []] := by
  induction u with
  | nil =>
    intro fuel acc _ hfuel
    match fuel, hfuel with
    | f+1, _ =>
      simp only [List.nil_append, List.append_nil]
      rw [show (fence : Text) = bt :: [bt, bt] from rfl]
      rw [splitGo]
      rw [show List.isPrefixOf [bt, bt, bt] (bt :: [bt, bt]) = true from rfl]
      simp only [if_true]
      rw [show List.drop (bt :: [bt, bt] : Text).length (bt :: [bt, bt]) = ([] : Text) from rfl]
      rw [splitGo]
      rfl
  | cons a u' ih =>
    intro fuel acc hocc hfuel
    match fuel, hfuel with
    | f+1, hf2 =>
      have h0 : fence.isPrefixOf (a :: (u' ++ fence)) = false := by
        have := hocc 0 (by simp)
        simpa using this
      show splitGo fence (f+1) (a :: (u' ++ fence)) acc = [acc.reverse ++ (a :: u'), []]
      rw [splitGo, h0]
      simp only [Bool.false_eq_true, if_false]
      rw [ih f (a :: acc)
        (fun i hi => by
          have := hocc (i+1) (by simpa using Nat.succ_lt_succ hi)
          simpa using this)
        (by
          have : u'.length + 1 < f + 1 := by simpa using hf2
          omega)]
      simp

theorem noFenceB_drops {p : Text} (h : noFenceB p = true) :
    ∀ j, fence.isPrefixOf (p.drop j) = false := by
  intro j
  by_cases hj : j < p.length
  · have := List.all_eq_true.mp h j (List.mem_range.mpr hj)
    simpa using this
  · rw [List.drop_of_length_le (by omega)]
    rfl

/-- No fence occurrence starts inside `p ++ "\n"` followed by a fence. -/
theorem no_fence_occ_base {p : Text} (hp : ∀ j, fence.isPrefixOf (p.drop j) = false) :
    ∀ i, i < (p ++ ['\n']).length →
      fence.isPrefixOf ((p ++ ['\n']).drop i ++ fence) = false := by
  intro i hi
  have hle : i ≤ p.length := by
    simp only [List.length_append, List.length_cons, List.length_nil] at hi
    omega
  rw [List.drop_append_eq_append_drop, Nat.sub_eq_zero_of_le hle]
  have hpi := hp i
  rcases e : p.drop i with _ | ⟨a, _ | ⟨b, _ | ⟨c, x⟩⟩⟩
  · rw [fence_eq]
    simp [List.isPrefixOf, show (bt == '\n') = false from rfl]
  · rw [fence_eq]
    simp [List.isPrefixOf, show (bt == '\n') = false from rfl]
  · rw [fence_eq]
    simp [List.isPrefixOf, show (bt == '\n') = false from rfl]
  · rw [e] at hpi
    rw [fence_eq] at hpi ⊢
    simp only [List.isPrefixOf, List.cons_append, List.drop_zero] at hpi ⊢
    simpa using hpi

/-- No fence occurrence starts inside `pre ++ p ++ "\n"` followed by a
fence, when `pre` is backtick-free and `p` is fence-free. -/
theorem no_fence_occ_pre {p : Text} (hp : ∀ j, fence.isPrefixOf (p.drop j) = false) :
    ∀ (pre : Text), (∀ c ∈ pre, (bt == c) = false) →
      ∀ i, i < (pre ++ (p ++ ['\n'])).length →
        fence.isPrefixOf ((pre ++ (p ++ ['\n'])).drop i ++ fence) = false := by
  intro pre
  induction pre with
  | nil =>
    intro _ i hi
    simpa using no_fence_occ_base hp i (by simpa using hi)
  | cons c pre' ih =>
    intro hpre i hi
    cases i with
    | zero =>
      simp only [List.drop_zero, List.cons_append]
      rw [fence_eq]
      simp [List.isPrefixOf, hpre c (by simp)]
    | succ i2 =>
      simp only [List.cons_append, List.drop_succ_cons]
      refine ih (fun d hd => hpre d (by simp [hd])) i2 ?_
      simp only [List.cons_append, List.length_cons] at hi
      omega

theorem pySplit_wrap (u : Text)
    (hocc : ∀ i, i < u.length → fence.isPrefixOf (u.drop i ++ fence) = false) :
    pySplit fence (fence ++ (u ++ fence)) = [[], u, []] := by
  unfold pySplit
  have hlen : (fence ++ (u ++ fence)).length = u.length + 6 := by
    simp [fence_eq]
  rw [hlen]
  rw [show fence ++ (u ++ fence) = bt :: (bt :: bt :: (u ++ fence)) from rfl]
  rw [splitGo]
  rw [show List.isPrefixOf fence (bt :: bt :: bt :: (u ++ fence)) = true from by
    rw [fence_eq]
    simp [List.isPrefixOf]]
  simp only [if_true]
  rw [show List.drop fence.length (bt :: bt :: bt :: (u ++ fence)) = u ++ fence from rfl]
  rw [splitGo_append_fence u (u.length + 6) [] hocc (by omega)]
  simp

theorem getLast?_wrapTagged (p : Text) : (wrapTagged p).getLast? = some bt := by
  unfold wrapTagged
  rw [List.getLast?_append]
  rw [show (txt "\n```" : Text).getLast? = some bt from rfl]
  rfl

theorem getLast?_wrapPlain (p : Text) : (wrapPlain p).getLast? = some bt := by
  unfold wrapPlain
  rw [List.getLast?_append]
  rw [show (txt "\n```" : Text).getLast? = some bt from rfl]
  rfl

/-- Normalizing a `json`-tagged fenced payload strips exactly the wrapper. -/
theorem normalize_wrapTagged {p : Text} (hF : noFenceB p = true) :
    normalize (wrapTagged p) = pyStrip p := by
  have hp := noFenceB_drops hF
  have hocc := no_fence_occ_pre hp (txt "json\n") (by decide)
  have hw : wrapTagged p = fence ++ ((txt "json\n" ++ (p ++ ['\n'])) ++ fence) := by
    unfold wrapTagged
    rw [show (txt "```json\n" : Text) = fence ++ txt "json\n" from rfl,
        show (txt "\n```" : Text) = ['\n'] ++ fence from rfl]
    simp [List.append_assoc]
  have hstrip : pyStrip (wrapTagged p) = wrapTagged p :=
    pyStrip_of_clean_ends (c := bt) (d := bt) rfl rfl (getLast?_wrapTagged p) rfl
  unfold normalize
  simp only [hstrip]
  rw [show fence.isPrefixOf (wrapTagged p) = true from by
    rw [hw]; exact fence_isPrefixOf_append _]
  simp only [if_true]
  rw [hw, pySplit_wrap _ hocc]
  simp only [List.drop_succ_cons, List.drop_zero, List.headD_cons]
  rw [show (txt "json").isPrefixOf (txt "json\n" ++ (p ++ ['\n'])) = true from rfl]
  simp only [if_true]
  rw [show (txt "json\n" ++ (p ++ ['\n'])).drop 4 = '\n' :: (p ++ ['\n']) from rfl]
  exact pyStrip_sandwich p

/-- Normalizing an untagged fenced payload strips exactly the wrapper. -/
theorem normalize_wrapPlain {p : Text} (hF : noFenceB p = true) :
    normalize (wrapPlain p) = pyStrip p := by
  have hp := noFenceB_drops hF
  have hocc := no_fence_occ_pre hp [] (by simp)
  have hw : wrapPlain p = fence ++ (('\n' :: (p ++ ['\n'])) ++ fence) := by
    unfold wrapPlain
    rw [show (txt "```\n" : Text) = fence ++ ['\n'] from rfl,
        show (txt "\n```" : Text) = ['\n'] ++ fence from rfl]
    simp [List.append_assoc]
  have hstrip : pyStrip (wrapPlain p) = wrapPlain p :=
    pyStrip_of_clean_ends (c := bt) (d := bt) rfl rfl (getLast?_wrapPlain p) rfl
  unfold normalize
  simp only [hstrip]
  rw [show fence.isPrefixOf (wrapPlain p) = true from by
    rw [hw]; exact fence_isPrefixOf_append _]
  simp only [if_true]
  have hocc2 : ∀ i, i < ('\n' :: (p ++ ['\n'])).length →
      fence.isPrefixOf (('\n' :: (p ++ ['\n'])).drop i ++ fence) = false := by
    intro i hi
    have := no_fence_occ_pre hp ['\n'] (by decide) i
    simpa using this (by simpa using hi)
  rw [hw, pySplit_wrap _ hocc2]
  simp only [List.drop_succ_cons, List.drop_zero, List.headD_cons]
  rw [show (txt "json").isPrefixOf ('\n' :: (p ++ ['\n'])) = false from rfl]
  simp only [Bool.false_eq_true, if_false]
  exact pyStrip_sandwich p

/-- When the stripped text is not fenced, normalization is just the strip. -/
theorem normalize_of_not_fenced {p : Text} (h : fence.isPrefixOf (pyStrip p) = false) :
    normalize p = pyStrip p := by
  unfold normalize
  simp only [h, Bool.false_eq_true, if_false]
  exact pyStrip_idem p

theorem parseScalar_not_obj {l : Text} {j : Json} {r : Text}
    (h : parseScalar l = some (j, r)) : ∀ kvs, j ≠ Json.obj kvs := by
  unfold parseScalar at h
  split at h
  · intro kvs hk
    cases h
    cases hk
  split at h
  · intro kvs hk
    cases h
    cases hk
  split at h
  · intro kvs hk
    cases h
    cases hk
  split at h
  · intro kvs hk
    cases h
    cases hk
  split at h
  · intro kvs hk
    cases h
    cases hk
  split at h
  · intro kvs hk
    cases h
    cases hk
  · rcases e : lexNumber l with _ | pr <;> rw [e] at h
    · cases h
    · intro kvs hk
      cases h
      cases hk

theorem parseElems_arr :
    ∀ (f : Nat) (l : Text) (acc : List Json) (j : Json) (r : Text),
      parseElems f l acc = some (j, r) → ∃ xs, j = Json.arr xs := by
  intro f
  induction f with
  | zero =>
    intro l acc j r h
    cases h
  | succ f2 ih =>
    intro l acc j r h
    unfold parseElems at h
    split at h
    next v r1 _ =>
      split at h
      next r2 _ => exact ih r2 (acc ++ [v]) j r h
      next r2 _ =>
        cases h
        exact ⟨acc ++ [v], rfl⟩
      · cases h
    · cases h

theorem parseVal_obj_head :
    ∀ (f : Nat) (l : Text) (kvs : List (Text × Json)) (r : Text),
      parseVal f l = some (Json.obj kvs, r) → ∃ tl, skipWs l = '\x7b' :: tl := by
  intro f
  match f with
  | 0 => intro l kvs r h; cases h
  | f2+1 =>
    intro l kvs r h
    unfold parseVal at h
    split at h
    next r1 heq => exact ⟨r1, heq⟩
    next r1 heq =>
      split at h
      · cases h
      next r2 _ =>
        obtain ⟨xs, hxs⟩ := parseElems_arr f2 _ [] _ _ h
        simp at hxs
    next r1 heq =>
      rcases e : parseStrBody r1 with _ | pr <;> rw [e] at h
      · cases h
      · cases h
    next heq1 heq2 heq3 =>
      exact absurd (parseScalar_not_obj h kvs rfl) (by simp)

theorem json_loads_obj_head {t : Text} {kvs : List (Text × Json)}
    (h : json_loads t = some (Json.obj kvs)) : ∃ tl, skipWs t = '\x7b' :: tl := by
  unfold json_loads at h
  split at h
  next j rest heq =>
    split at h
    · cases h
      exact parseVal_obj_head _ t kvs rest heq
    · cases h
  · cases h

theorem pyWs_of_jsonWs {c : Char} (h : jsonWs c = true) : pyWs c = true := by
  simp only [jsonWs, decide_eq_true_eq] at h
  rcases h with h | h | h | h <;> simp [pyWs, h]

/-- A stripped text that parses to a JSON object starts with a brace, so
it is never taken for a fenced block. -/
theorem not_fenced_of_obj {p : Text} {kvs : List (Text × Json)}
    (h : json_loads (pyStrip p) = some (Json.obj kvs)) :
    fence.isPrefixOf (pyStrip p) = false := by
  cases e : pyStrip p with
  | nil =>
    rw [e] at h
    cases h
  | cons c t =>
    have hpw : pyWs c = false := by
      obtain ⟨w, hw⟩ := stripTrail_prefix (stripLead p)
      apply stripLead_head (l := p)
      have : pyStrip p ++ w = stripLead p := hw.symm
      rw [e] at this
      rw [← this]
      rfl
    have hjw : jsonWs c = false := by
      cases e2 : jsonWs c
      · rfl
      · rw [pyWs_of_jsonWs e2] at hpw
        cases hpw
    rw [e] at h
    obtain ⟨tl, htl⟩ := json_loads_obj_head h
    have hskip : skipWs (c :: t) = c :: t := by
      simp [skipWs, hjw]
    rw [hskip] at htl
    have hc : c = '\x7b' := by
      cases htl
      rfl
    subst hc
    rw [fence_eq]
    simp [List.isPrefixOf, show (bt == '\x7b') = false from rfl]

/-! ### Characterization lemmas: what a successful node run looks like -/

/-- Executing the compiled graph is exactly the explicit five-stage chain. -/
theorem run_pipeline_eq_chained (caps : Caps) (jd rt : Text) :
    run_pipeline caps jd rt = chained_run caps jd rt := by
  have hso : stage_order =
      ["step_parse_jd", "step_skill_gap", "step_cover_letter", "step_email",
       "step_interview_prep"] := rfl
  have n1 : node_fn "step_parse_jd" = some parse_jd_node := rfl
  have n2 : node_fn "step_skill_gap" = some skill_gap_node := rfl
  have n3 : node_fn "step_cover_letter" = some cover_letter_node := rfl
  have n4 : node_fn "step_email" = some email_node := rfl
  have n5 : node_fn "step_interview_prep" = some interview_prep_node := rfl
  show run_nodes caps stage_order (initial_state jd rt) = chained_run caps jd rt
  rw [hso]
  simp only [run_nodes, n1, n2, n3, n4, n5]
  unfold chained_run
  rcases parse_jd_node caps (initial_state jd rt) with e | ⟨s1, t1⟩
  · rfl
  simp only []
  rcases skill_gap_node caps s1 with e | ⟨s2, t2⟩
  · rfl
  simp only []
  rcases cover_letter_node caps s2 with e | ⟨s3, t3⟩
  · rfl
  simp only []
  rcases email_node caps s3 with e | ⟨s4, t4⟩
  · rfl
  simp only []
  rcases interview_prep_node caps s4 with e | ⟨s5, t5⟩
  · rfl
  rfl

theorem parse_jd_node_shape (caps : Caps) (s s' : GraphState) (t : List CapCall)
    (h : parse_jd_node caps s = .ok (s', t)) :
    ∃ content, caps.generate (.parseJD s.job_description) = .ok content ∧
      s' = { s with
              parsed_jd := (json_loads (normalize content)).getD defaultParseJD,
              current_step := txt "jd_parsed" } ∧
      t = [.generate (.parseJD s.job_description)] := by
  unfold parse_jd_node at h
  split at h
  · exact Except.noConfusion h
  next content heq =>
    exact ⟨content, heq, (congrArg Prod.fst (Except.ok.inj h)).symm,
      (congrArg Prod.snd (Except.ok.inj h)).symm⟩

theorem skill_gap_node_shape (caps : Caps) (s s' : GraphState) (t : List CapCall)
    (h : skill_gap_node caps s = .ok (s', t)) :
    ∃ rs q ctx content matched missing score,
      dictGet s.parsed_jd (txt "skills_required") (Json.arr []) = .ok rs ∧
      skill_gap_query rs = .ok q ∧
      caps.retrieve_resume_context q 5 = .ok ctx ∧
      caps.generate (.skillGap rs ctx) = .ok content ∧
      dictGet ((json_loads (normalize content)).getD (defaultSkillGap rs))
        (txt "matched_skills") (Json.arr []) = .ok matched ∧
      dictGet ((json_loads (normalize content)).getD (defaultSkillGap rs))
        (txt "missing_skills") (Json.arr []) = .ok missing ∧
      dictGet ((json_loads (normalize content)).getD (defaultSkillGap rs))
        (txt "match_score") (Json.num (txt "0")) = .ok score ∧
      s' = { s with
              matched_skills := matched,
              missing_skills := missing,
              match_score := score,
              current_step := txt "skills_analyzed" } ∧
      t = [.retrieve q 5, .generate (.skillGap rs ctx)] := by
  unfold skill_gap_node at h
  split at h
  · exact Except.noConfusion h
  next rs hrs =>
    split at h
    · exact Except.noConfusion h
    next q hq =>
      split at h
      · exact Except.noConfusion h
      next ctx hctx =>
        split at h
        · exact Except.noConfusion h
        next content hcontent =>
          simp only [] at h
          split at h
          · exact Except.noConfusion h
          next matched hmatched =>
            split at h
            · exact Except.noConfusion h
            next missing hmissing =>
              split at h
              · exact Except.noConfusion h
              next score hscore =>
                exact ⟨rs, q, ctx, content, matched, missing, score,
                  hrs, hq, hctx, hcontent, hmatched, hmissing, hscore,
                  (congrArg Prod.fst (Except.ok.inj h)).symm,
                  (congrArg Prod.snd (Except.ok.inj h)).symm⟩

theorem cover_letter_node_shape (caps : Caps) (s s' : GraphState) (t : List CapCall)
    (h : cover_letter_node caps s = .ok (s', t)) :
    ∃ jtq resume_ctx contact_ctx jt comp mj msj content,
      dictGet s.parsed_jd (txt "job_title") (Json.str []) = .ok jtq ∧
      caps.retrieve_resume_context (pyStr jtq ++ txt " experience projects achievements") 5
        = .ok resume_ctx ∧
      caps.retrieve_resume_context (txt "name address phone email contact location") 5
        = .ok contact_ctx ∧
      dictGet s.parsed_jd (txt "job_title") (Json.str []) = .ok jt ∧
      dictGet s.parsed_jd (txt "company") (Json.str []) = .ok comp ∧
      pyJoin (txt ", ") s.matched_skills = .ok mj ∧
      pyJoin (txt ", ") s.missing_skills = .ok msj ∧
      caps.generate (.coverLetter jt comp mj msj contact_ctx resume_ctx) = .ok content ∧
      s' = { s with
              cover_letter := content,
              current_step := txt "cover_letter_done" } ∧
      t = [ .retrieve (pyStr jtq ++ txt " experience projects achievements") 5,
            .retrieve (txt "name address phone email contact location") 5,
            .generate (.coverLetter jt comp mj msj contact_ctx resume_ctx) ] := by
  unfold cover_letter_node at h
  split at h
  · exact Except.noConfusion h
  next jtq hjtq =>
    simp only [] at h
    split at h
    · exact Except.noConfusion h
    next resume_ctx hres =>
      split at h
      · exact Except.noConfusion h
      next contact_ctx hcon =>
        split at h
        · exact Except.noConfusion h
        next comp hcomp =>
          split at h
          · exact Except.noConfusion h
          next mj hmj =>
            split at h
            · exact Except.noConfusion h
            next msj hmsj =>
              split at h
              · exact Except.noConfusion h
              next content hcontent =>
                exact ⟨jtq, resume_ctx, contact_ctx, jtq, comp, mj, msj, content,
                  hjtq, hres, hcon, hjtq, hcomp, hmj, hmsj, hcontent,
                  (congrArg Prod.fst (Except.ok.inj h)).symm,
                  (congrArg Prod.snd (Except.ok.inj h)).symm⟩

theorem email_node_shape (caps : Caps) (s s' : GraphState) (t : List CapCall)
    (h : email_node caps s = .ok (s', t)) :
    ∃ contact_ctx jt comp sliced sj content,
      caps.retrieve_resume_context (txt "name address phone email contact") 5
        = .ok contact_ctx ∧
      dictGet s.parsed_jd (txt "job_title") (Json.str []) = .ok jt ∧
      dictGet s.parsed_jd (txt "company") (Json.str []) = .ok comp ∧
      pySliceTo 5 s.matched_skills = .ok sliced ∧
      pyJoin (txt ", ") sliced = .ok sj ∧
      caps.generate (.email jt comp s.match_score sj contact_ctx) = .ok content ∧
      s' = { s with
              email_draft := content,
              current_step := txt "email_done" } ∧
      t = [ .retrieve (txt "name address phone email contact") 5,
            .generate (.email jt comp s.match_score sj contact_ctx) ] := by
  unfold email_node at h
  split at h
  · exact Except.noConfusion h
  next contact_ctx hcon =>
    split at h
    · exact Except.noConfusion h
    next jt hjt =>
      split at h
      · exact Except.noConfusion h
      next comp hcomp =>
        split at h
        · exact Except.noConfusion h
        next sliced hsl =>
          split at h
          · exact Except.noConfusion h
          next sj hsj =>
            split at h
            · exact Except.noConfusion h
            next content hcontent =>
              exact ⟨contact_ctx, jt, comp, sliced, sj, content,
                hcon, hjt, hcomp, hsl, hsj, hcontent,
                (congrArg Prod.fst (Except.ok.inj h)).symm,
                (congrArg Prod.snd (Except.ok.inj h)).symm⟩

theorem interview_prep_node_shape (caps : Caps) (s s' : GraphState) (t : List CapCall)
    (h : interview_prep_node caps s = .ok (s', t)) :
    ∃ jt comp resp respS missS mj content tech behav allq tips,
      dictGet s.parsed_jd (txt "job_title") (Json.str []) = .ok jt ∧
      dictGet s.parsed_jd (txt "company") (Json.str []) = .ok comp ∧
      dictGet s.parsed_jd (txt "responsibilities") (Json.arr []) = .ok resp ∧
      pySliceTo 4 resp = .ok respS ∧
      pySliceTo 5 s.missing_skills = .ok missS ∧
      pyJoin (txt ", ") missS = .ok mj ∧
      caps.generate (.interviewPrep jt comp respS mj) = .ok content ∧
      dictGet ((json_loads (normalize content)).getD defaultInterviewPrep)
        (txt "technical_questions") (Json.arr []) = .ok tech ∧
      dictGet ((json_loads (normalize content)).getD defaultInterviewPrep)
        (txt "behavioral_questions") (Json.arr []) = .ok behav ∧
      pyAdd tech behav = .ok allq ∧
      dictGet ((json_loads (normalize content)).getD defaultInterviewPrep)
        (txt "prep_tips") (Json.str []) = .ok tips ∧
      s' = { s with
              interview_questions := allq,
              prep_tips := tips,
              current_step := txt "complete" } ∧
      t = [.generate (.interviewPrep jt comp respS mj)] := by
  unfold interview_prep_node at h
  split at h
  · exact Except.noConfusion h
  next jt hjt =>
    split at h
    · exact Except.noConfusion h
    next comp hcomp =>
      split at h
      · exact Except.noConfusion h
      next resp hresp =>
        split at h
        · exact Except.noConfusion h
        next respS hrs2 =>
          split at h
          · exact Except.noConfusion h
          next missS hms =>
            split at h
            · exact Except.noConfusion h
            next mj hmj =>
              split at h
              · exact Except.noConfusion h
              next content hcontent =>
                simp only [] at h
                split at h
                · exact Except.noConfusion h
                next tech htech =>
                  split at h
                  · exact Except.noConfusion h
                  next behav hbehav =>
                    split at h
                    · exact Except.noConfusion h
                    next allq hallq =>
                      split at h
                      · exact Except.noConfusion h
                      next tips htips =>
                        exact ⟨jt, comp, resp, respS, missS, mj, content,
                          tech, behav, allq, tips,
                          hjt, hcomp, hresp, hrs2, hms, hmj, hcontent,
                          htech, hbehav, hallq, htips,
                          (congrArg Prod.fst (Except.ok.inj h)).symm,
                          (congrArg Prod.snd (Except.ok.inj h)).symm⟩

/-! ### Claim theorems -/

/-- C1 counterexample: a Generator response that is a valid JSON array (a
successfully-parsed non-object top level).  The Parse-JD stage does not
substitute its default payload — it stores the array as-is — and the next
following `.get` call then raises `AttributeError`, aborting the pipeline instead
of continuing. -/
theorem c1_counterexample :
    parse_jd_node c1caps w0 = .ok (c1s1, [.generate (.parseJD (txt "jd"))]) ∧
    c1s1.parsed_jd = Json.arr [Json.num (txt "1"), Json.num (txt "2")] ∧
    c1s1.parsed_jd ≠ defaultParseJD ∧
    skill_gap_node c1caps c1s1 = .error .attributeError ∧
    run_pipeline c1caps (txt "jd") [] = .error .attributeError :=
  ⟨rfl, rfl, fun h => Json.noConfusion h, rfl, rfl⟩

/-- C1 (amended): when `json.loads` raises — i.e. the normalized response
text does not parse at all — the Parse-JD stage stores its default payload
verbatim and returns successfully; but a successfully-parsed non-object
top level is stored as-is rather than defaulted (see the counterexample). -/
theorem c1_theorem (caps : Caps) (s : GraphState) (content : Text)
    (hgen : caps.generate (.parseJD s.job_description) = .ok content)
    (hparse : json_loads (normalize content) = none) :
    parse_jd_node caps s =
      .ok ({ s with parsed_jd := defaultParseJD, current_step := txt "jd_parsed" },
           [.generate (.parseJD s.job_description)]) := by
  unfold parse_jd_node
  rw [hgen]
  simp only [hparse, Option.getD_none]

/-- Witness for C1 (amended) at a concrete prose response. -/
theorem c1_witness :
    proseCaps.generate (.parseJD w0.job_description)
      = .ok (txt "Sorry, I cannot help with that.") ∧
    json_loads (normalize (txt "Sorry, I cannot help with that.")) = none ∧
    parse_jd_node proseCaps w0 =
      .ok ({ w0 with parsed_jd := defaultParseJD, current_step := txt "jd_parsed" },
           [.generate (.parseJD w0.job_description)]) :=
  ⟨rfl, rfl, c1_theorem proseCaps w0 (txt "Sorry, I cannot help with that.") rfl rfl⟩

/-- C2 counterexample: when the Generator answers `{"match_score": 150}`,
the run completes and the `match_score` of the final record is 150 — not an
integer in `[0, 100]`; nothing clamps or defaults it. -/
theorem c2_counterexample :
    (run_pipeline c2caps (txt "jd") []).map (fun pr => pr.1.match_score)
      = .ok (Json.num (txt "150")) ∧
    jsonIntIn0to100 (Json.num (txt "150")) = false :=
  ⟨rfl, rfl⟩

/-- C2 (amended): when the Skill-Gap response parses to a JSON object, the
`match_score` written into the record is exactly the value stored under
the `match_score` key (the integer `0` only when the key is absent);
out-of-range and non-numeric values pass through unclamped. -/
theorem c2_theorem (caps : Caps) (s : GraphState) (rs : Json) (q ctx content : Text)
    (kvs : List (Text × Json))
    (hsk : dictGet s.parsed_jd (txt "skills_required") (Json.arr []) = .ok rs)
    (hq : skill_gap_query rs = .ok q)
    (hret : caps.retrieve_resume_context q 5 = .ok ctx)
    (hgen : caps.generate (.skillGap rs ctx) = .ok content)
    (hparse : json_loads (normalize content) = some (Json.obj kvs)) :
    skill_gap_node caps s =
      .ok ({ s with
              matched_skills := (objLookup kvs (txt "matched_skills")).getD (Json.arr []),
              missing_skills := (objLookup kvs (txt "missing_skills")).getD (Json.arr []),
              match_score := (objLookup kvs (txt "match_score")).getD (Json.num (txt "0")),
              current_step := txt "skills_analyzed" },
           [.retrieve q 5, .generate (.skillGap rs ctx)]) := by
  unfold skill_gap_node
  rw [hsk]
  simp only []
  rw [hq]
  simp only []
  rw [hret]
  simp only []
  rw [hgen]
  simp only [hparse, Option.getD_some, dictGet]

/-- Witness for C2 (amended) at the concrete out-of-range score 150. -/
theorem c2_witness :
    dictGet c2s1.parsed_jd (txt "skills_required") (Json.arr []) = .ok (Json.arr []) ∧
    skill_gap_query (Json.arr []) = .ok (txt "skills experience ") ∧
    c2caps.retrieve_resume_context (txt "skills experience ") 5 = .ok [] ∧
    c2caps.generate (.skillGap (Json.arr []) []) = .ok (txt "\x7b\"match_score\": 150\x7d") ∧
    json_loads (normalize (txt "\x7b\"match_score\": 150\x7d")) = some (Json.obj c2kvs) ∧
    skill_gap_node c2caps c2s1 =
      .ok ({ c2s1 with
              matched_skills := (objLookup c2kvs (txt "matched_skills")).getD (Json.arr []),
              missing_skills := (objLookup c2kvs (txt "missing_skills")).getD (Json.arr []),
              match_score := (objLookup c2kvs (txt "match_score")).getD (Json.num (txt "0")),
              current_step := txt "skills_analyzed" },
           [.retrieve (txt "skills experience ") 5, .generate (.skillGap (Json.arr []) [])]) ∧
    (objLookup c2kvs (txt "match_score")).getD (Json.num (txt "0")) = Json.num (txt "150") :=
  ⟨rfl, rfl, rfl, rfl, rfl,
   c2_theorem c2caps c2s1 (Json.arr []) (txt "skills experience ") []
     (txt "\x7b\"match_score\": 150\x7d") c2kvs rfl rfl rfl rfl rfl, rfl⟩

/-- C3: when parsed_jd carries a required-skills list (of skill-name
strings) and the Skill-Gap response does not parse as JSON, the stage
writes `matched_skills = []`, `missing_skills` = the full required-skills
list (not an empty list), and `match_score = 0`. -/
theorem c3_theorem (caps : Caps) (s : GraphState) (skills : List Json)
    (ts : List Text) (ctx content : Text)
    (hsk : dictGet s.parsed_jd (txt "skills_required") (Json.arr []) = .ok (Json.arr skills))
    (hts : strListOf (skills.take 5) = some ts)
    (hret : caps.retrieve_resume_context
      (txt "skills experience " ++ List.intercalate (txt " ") ts) 5 = .ok ctx)
    (hgen : caps.generate (.skillGap (Json.arr skills) ctx) = .ok content)
    (hparse : json_loads (normalize content) = none) :
    skill_gap_node caps s =
      .ok ({ s with
              matched_skills := Json.arr [],
              missing_skills := Json.arr skills,
              match_score := Json.num (txt "0"),
              current_step := txt "skills_analyzed" },
           [.retrieve (txt "skills experience " ++ List.intercalate (txt " ") ts) 5,
            .generate (.skillGap (Json.arr skills) ctx)]) := by
  have hq : skill_gap_query (Json.arr skills)
      = .ok (txt "skills experience " ++ List.intercalate (txt " ") ts) := by
    unfold skill_gap_query
    simp only [pySliceTo]
    unfold pyJoin
    simp only []
    rw [hts]
  unfold skill_gap_node
  rw [hsk]
  simp only []
  rw [hq]
  simp only []
  rw [hret]
  simp only []
  rw [hgen]
  simp only [hparse, Option.getD_none]
  rfl

/-- Witness for C3 at a concrete prose response and two required skills. -/
theorem c3_witness :
    dictGet c3state.parsed_jd (txt "skills_required") (Json.arr [])
      = .ok (Json.arr [Json.str (txt "Go"), Json.str (txt "SQL")]) ∧
    strListOf ([Json.str (txt "Go"), Json.str (txt "SQL")].take 5)
      = some [txt "Go", txt "SQL"] ∧
    json_loads (normalize (txt "Sorry, I cannot help with that.")) = none ∧
    skill_gap_node proseCaps c3state =
      .ok ({ c3state with
              matched_skills := Json.arr [],
              missing_skills := Json.arr [Json.str (txt "Go"), Json.str (txt "SQL")],
              match_score := Json.num (txt "0"),
              current_step := txt "skills_analyzed" },
           [.retrieve (txt "skills experience "
              ++ List.intercalate (txt " ") [txt "Go", txt "SQL"]) 5,
            .generate (.skillGap (Json.arr [Json.str (txt "Go"), Json.str (txt "SQL")]) [])]) := by
  refine ⟨rfl, rfl, rfl, ?_⟩
  exact c3_theorem proseCaps c3state [Json.str (txt "Go"), Json.str (txt "SQL")]
    [txt "Go", txt "SQL"] [] (txt "Sorry, I cannot help with that.") rfl rfl rfl rfl rfl

/-- C4: every run executes the five stages in the fixed linear order
Parse-JD, Skill-Gap, Cover-Letter, Email, Interview-Prep; the entry point
is Parse-JD, every stage node has exactly one outgoing edge (no branching,
looping or skipping), Interview-Prep is last, and executing the compiled
graph equals the explicit sequential composition of the five stage
functions, so Skill-Gap always receives the state written by Parse-JD. -/
theorem c4_pipeline_stage_order_fixed :
    entry_point = "step_parse_jd" ∧
    stage_order = ["step_parse_jd", "step_skill_gap", "step_cover_letter",
      "step_email", "step_interview_prep"] ∧
    ((graph_nodes.map Prod.fst).all
      (fun n => (graph_edges.filter (fun e => e.1 == n)).length == 1)) = true ∧
    stage_order.getLast? = some "step_interview_prep" ∧
    ∀ caps jd rt, run_pipeline caps jd rt = chained_run caps jd rt :=
  ⟨rfl, rfl, rfl, rfl, run_pipeline_eq_chained⟩

/-- C5: if the Generator or the Retriever (or any other step of a stage)
raises during a run, the run returns that single failure and no record at
all; a record is returned only when all five stages succeeded in sequence,
so no partial record with only earlier stages' fields ever escapes, and no
downstream stage runs after a failure. -/
theorem c5_run_propagates_stage_failure (caps : Caps) (jd rt : Text) :
    (∃ e, run_pipeline caps jd rt = .error e ∧
      (parse_jd_node caps (initial_state jd rt) = .error e ∨
       ∃ s1 t1, parse_jd_node caps (initial_state jd rt) = .ok (s1, t1) ∧
         (skill_gap_node caps s1 = .error e ∨
          ∃ s2 t2, skill_gap_node caps s1 = .ok (s2, t2) ∧
            (cover_letter_node caps s2 = .error e ∨
             ∃ s3 t3, cover_letter_node caps s2 = .ok (s3, t3) ∧
               (email_node caps s3 = .error e ∨
                ∃ s4 t4, email_node caps s3 = .ok (s4, t4) ∧
                  interview_prep_node caps s4 = .error e))))) ∨
    (∃ s1 t1 s2 t2 s3 t3 s4 t4 s5 t5,
      parse_jd_node caps (initial_state jd rt) = .ok (s1, t1) ∧
      skill_gap_node caps s1 = .ok (s2, t2) ∧
      cover_letter_node caps s2 = .ok (s3, t3) ∧
      email_node caps s3 = .ok (s4, t4) ∧
      interview_prep_node caps s4 = .ok (s5, t5) ∧
      run_pipeline caps jd rt = .ok (s5, t1 ++ (t2 ++ (t3 ++ (t4 ++ (t5 ++ [])))))) := by
  have hc := run_pipeline_eq_chained caps jd rt
  unfold chained_run at hc
  rcases h1 : parse_jd_node caps (initial_state jd rt) with e | ⟨s1, t1⟩
  · rw [h1] at hc
    exact .inl ⟨e, hc, .inl rfl⟩
  rw [h1] at hc
  simp only [] at hc
  rcases h2 : skill_gap_node caps s1 with e | ⟨s2, t2⟩
  · rw [h2] at hc
    exact .inl ⟨e, hc, .inr ⟨s1, t1, rfl, .inl h2⟩⟩
  rw [h2] at hc
  simp only [] at hc
  rcases h3 : cover_letter_node caps s2 with e | ⟨s3, t3⟩
  · rw [h3] at hc
    exact .inl ⟨e, hc, .inr ⟨s1, t1, rfl, .inr ⟨s2, t2, h2, .inl h3⟩⟩⟩
  rw [h3] at hc
  simp only [] at hc
  rcases h4 : email_node caps s3 with e | ⟨s4, t4⟩
  · rw [h4] at hc
    exact .inl ⟨e, hc, .inr ⟨s1, t1, rfl, .inr ⟨s2, t2, h2, .inr ⟨s3, t3, h3, .inl h4⟩⟩⟩⟩
  rw [h4] at hc
  simp only [] at hc
  rcases h5 : interview_prep_node caps s4 with e | ⟨s5, t5⟩
  · rw [h5] at hc
    exact .inl ⟨e, hc, .inr ⟨s1, t1, rfl, .inr ⟨s2, t2, h2,
      .inr ⟨s3, t3, h3, .inr ⟨s4, t4, h4, h5⟩⟩⟩⟩⟩
  rw [h5] at hc
  exact .inr ⟨s1, t1, s2, t2, s3, t3, s4, t4, s5, t5, rfl, h2, h3, h4, h5, hc⟩

/-- C6: every stage leaves the inputs `job_description` and `resume_text`
and every field written by an earlier stage unchanged: Skill-Gap preserves
`parsed_jd`; Cover-Letter additionally preserves `matched_skills`,
`missing_skills` and `match_score`; Email additionally preserves
`cover_letter`; Interview-Prep additionally preserves `email_draft`. -/
theorem c6_stages_preserve_upstream_fields :
    (∀ caps s s' t, parse_jd_node caps s = .ok (s', t) →
      s'.job_description = s.job_description ∧ s'.resume_text = s.resume_text) ∧
    (∀ caps s s' t, skill_gap_node caps s = .ok (s', t) →
      s'.job_description = s.job_description ∧ s'.resume_text = s.resume_text ∧
      s'.parsed_jd = s.parsed_jd) ∧
    (∀ caps s s' t, cover_letter_node caps s = .ok (s', t) →
      s'.job_description = s.job_description ∧ s'.resume_text = s.resume_text ∧
      s'.parsed_jd = s.parsed_jd ∧ s'.matched_skills = s.matched_skills ∧
      s'.missing_skills = s.missing_skills ∧ s'.match_score = s.match_score) ∧
    (∀ caps s s' t, email_node caps s = .ok (s', t) →
      s'.job_description = s.job_description ∧ s'.resume_text = s.resume_text ∧
      s'.parsed_jd = s.parsed_jd ∧ s'.matched_skills = s.matched_skills ∧
      s'.missing_skills = s.missing_skills ∧ s'.match_score = s.match_score ∧
      s'.cover_letter = s.cover_letter) ∧
    (∀ caps s s' t, interview_prep_node caps s = .ok (s', t) →
      s'.job_description = s.job_description ∧ s'.resume_text = s.resume_text ∧
      s'.parsed_jd = s.parsed_jd ∧ s'.matched_skills = s.matched_skills ∧
      s'.missing_skills = s.missing_skills ∧ s'.match_score = s.match_score ∧
      s'.cover_letter = s.cover_letter ∧ s'.email_draft = s.email_draft) := by
  refine ⟨?_, ?_, ?_, ?_, ?_⟩
  · intro caps s s' t h
    obtain ⟨c, _, rfl, _⟩ := parse_jd_node_shape caps s s' t h
    exact ⟨rfl, rfl⟩
  · intro caps s s' t h
    obtain ⟨rs, q, ctx, c, m, mi, sc, _, _, _, _, _, _, _, rfl, _⟩ :=
      skill_gap_node_shape caps s s' t h
    exact ⟨rfl, rfl, rfl⟩
  · intro caps s s' t h
    obtain ⟨jtq, rc, cc, jt, co, mj, msj, c, _, _, _, _, _, _, _, _, rfl, _⟩ :=
      cover_letter_node_shape caps s s' t h
    exact ⟨rfl, rfl, rfl, rfl, rfl, rfl⟩
  · intro caps s s' t h
    obtain ⟨cc, jt, co, sl, sj, c, _, _, _, _, _, _, rfl, _⟩ :=
      email_node_shape caps s s' t h
    exact ⟨rfl, rfl, rfl, rfl, rfl, rfl, rfl⟩
  · intro caps s s' t h
    obtain ⟨jt, co, re, rs2, ms, mj, c, te, be, al, ti, _, _, _, _, _, _, _, _, _, _, _, rfl, _⟩ :=
      interview_prep_node_shape caps s s' t h
    exact ⟨rfl, rfl, rfl, rfl, rfl, rfl, rfl, rfl⟩

/-- Witness for C6 at the concrete capability set `wCaps`. -/
theorem c6_witness :
    (parse_jd_node wCaps w0 = .ok (w1, wtr1) ∧
      w1.job_description = w0.job_description ∧ w1.resume_text = w0.resume_text) ∧
    (skill_gap_node wCaps w1 = .ok (w2, wtr2) ∧
      w2.job_description = w1.job_description ∧ w2.resume_text = w1.resume_text ∧
      w2.parsed_jd = w1.parsed_jd) ∧
    (cover_letter_node wCaps w2 = .ok (w3, wtr3) ∧
      w3.job_description = w2.job_description ∧ w3.resume_text = w2.resume_text ∧
      w3.parsed_jd = w2.parsed_jd ∧ w3.matched_skills = w2.matched_skills ∧
      w3.missing_skills = w2.missing_skills ∧ w3.match_score = w2.match_score) ∧
    (email_node wCaps w3 = .ok (w4, wtr4) ∧
      w4.job_description = w3.job_description ∧ w4.resume_text = w3.resume_text ∧
      w4.parsed_jd = w3.parsed_jd ∧ w4.matched_skills = w3.matched_skills ∧
      w4.missing_skills = w3.missing_skills ∧ w4.match_score = w3.match_score ∧
      w4.cover_letter = w3.cover_letter) ∧
    (interview_prep_node wCaps w4 = .ok (w5, wtr5) ∧
      w5.job_description = w4.job_description ∧ w5.resume_text = w4.resume_text ∧
      w5.parsed_jd = w4.parsed_jd ∧ w5.matched_skills = w4.matched_skills ∧
      w5.missing_skills = w4.missing_skills ∧ w5.match_score = w4.match_score ∧
      w5.cover_letter = w4.cover_letter ∧ w5.email_draft = w4.email_draft) :=
  ⟨⟨rfl, c6_stages_preserve_upstream_fields.1 wCaps w0 w1 wtr1 rfl⟩,
   ⟨rfl, c6_stages_preserve_upstream_fields.2.1 wCaps w1 w2 wtr2 rfl⟩,
   ⟨rfl, c6_stages_preserve_upstream_fields.2.2.1 wCaps w2 w3 wtr3 rfl⟩,
   ⟨rfl, c6_stages_preserve_upstream_fields.2.2.2.1 wCaps w3 w4 wtr4 rfl⟩,
   ⟨rfl, c6_stages_preserve_upstream_fields.2.2.2.2 wCaps w4 w5 wtr5 rfl⟩⟩

/-- C7 counterexample: wrapping a valid JSON object payload in fence
markers is not always transparent.  The payload `{"a": "x```y"}` parses as
a JSON object on its own, but its fenced form parses to nothing (the
`split("```")[1]` step truncates it), so fenced and unfenced parses
disagree. -/
theorem c7_counterexample :
    json_loads (normalize c7payload)
      = some (Json.obj [(txt "a", Json.str (txt "x```y"))]) ∧
    json_loads (normalize (txt "```json\n" ++ c7payload ++ txt "\n```")) = none :=
  ⟨rfl, rfl⟩

/-- C7 (amended): for every valid JSON object payload that contains no
occurrence of the fence marker itself, parsing the payload wrapped in
fence markers — with or without a `json` tag — yields the same result as
parsing the unwrapped payload; and when the Interview-Prep response parses
to an object with technical and behavioral question lists, the stage
writes `interview_questions` as technical-then-behavioral, giving 8
entries for a well-formed 5 + 3 payload. -/
theorem c7_theorem :
    (∀ (p : Text) (kvs : List (Text × Json)), noFenceB p = true →
        json_loads (pyStrip p) = some (Json.obj kvs) →
        json_loads (normalize (wrapTagged p)) = json_loads (normalize p) ∧
        json_loads (normalize (wrapPlain p)) = json_loads (normalize p)) ∧
    (∀ (caps : Caps) (s : GraphState) (jt comp resp respS missS : Json)
        (mj content : Text) (kvs : List (Text × Json)) (ts bs : List Json),
        dictGet s.parsed_jd (txt "job_title") (Json.str []) = .ok jt →
        dictGet s.parsed_jd (txt "company") (Json.str []) = .ok comp →
        dictGet s.parsed_jd (txt "responsibilities") (Json.arr []) = .ok resp →
        pySliceTo 4 resp = .ok respS →
        pySliceTo 5 s.missing_skills = .ok missS →
        pyJoin (txt ", ") missS = .ok mj →
        caps.generate (.interviewPrep jt comp respS mj) = .ok content →
        json_loads (normalize content) = some (Json.obj kvs) →
        objLookup kvs (txt "technical_questions") = some (Json.arr ts) →
        objLookup kvs (txt "behavioral_questions") = some (Json.arr bs) →
        interview_prep_node caps s =
          .ok ({ s with
                  interview_questions := Json.arr (ts ++ bs),
                  prep_tips := (objLookup kvs (txt "prep_tips")).getD (Json.str []),
                  current_step := txt "complete" },
               [.generate (.interviewPrep jt comp respS mj)]) ∧
        (ts.length = 5 → bs.length = 3 → (ts ++ bs).length = 8)) := by
  constructor
  · intro p kvs hF h
    have hno := not_fenced_of_obj h
    rw [normalize_wrapTagged hF, normalize_wrapPlain hF, normalize_of_not_fenced hno]
    exact ⟨rfl, rfl⟩
  · intro caps s jt comp resp respS missS mj content kvs ts bs
    intro hjt hcomp hresp hrespS hmissS hmj hgen hparse htech hbehav
    constructor
    · unfold interview_prep_node
      rw [hjt]
      simp only []
      rw [hcomp]
      simp only []
      rw [hresp]
      simp only []
      rw [hrespS]
      simp only []
      rw [hmissS]
      simp only []
      rw [hmj]
      simp only []
      rw [hgen]
      simp only [hparse, Option.getD_some, dictGet, htech, hbehav, Option.getD_some]
      simp only [pyAdd]
    · intro h5 h3
      simp [h5, h3]

/-- Witness for C7 (amended): a concrete fence-free object payload, and a
concrete well-formed 5 + 3 Interview-Prep response. -/
theorem c7_witness :
    (noFenceB c7p0 = true ∧
     json_loads (pyStrip c7p0) = some (Json.obj [(txt "a", Json.num (txt "1"))]) ∧
     json_loads (normalize (wrapTagged c7p0)) = json_loads (normalize c7p0) ∧
     json_loads (normalize (wrapPlain c7p0)) = json_loads (normalize c7p0)) ∧
    (c7caps.generate (.interviewPrep (Json.str []) (Json.str []) (Json.arr []) [])
        = .ok c7resp ∧
     json_loads (normalize c7resp) = some (Json.obj c7kvs) ∧
     objLookup c7kvs (txt "technical_questions") = some (Json.arr c7ts) ∧
     objLookup c7kvs (txt "behavioral_questions") = some (Json.arr c7bs) ∧
     interview_prep_node c7caps w1 =
       .ok ({ w1 with
               interview_questions := Json.arr (c7ts ++ c7bs),
               prep_tips := (objLookup c7kvs (txt "prep_tips")).getD (Json.str []),
               current_step := txt "complete" },
            [.generate (.interviewPrep (Json.str []) (Json.str []) (Json.arr []) [])]) ∧
     (c7ts ++ c7bs).length = 8) :=
  ⟨⟨by decide, rfl,
    (c7_theorem.1 c7p0 [(txt "a", Json.num (txt "1"))] (by decide) rfl).1,
    (c7_theorem.1 c7p0 [(txt "a", Json.num (txt "1"))] (by decide) rfl).2⟩,
   ⟨rfl, rfl, rfl, rfl,
    (c7_theorem.2 c7caps w1 (Json.str []) (Json.str []) (Json.arr []) (Json.arr [])
      (Json.arr []) [] c7resp c7kvs c7ts c7bs rfl rfl rfl rfl rfl rfl rfl rfl rfl rfl).1,
    (c7_theorem.2 c7caps w1 (Json.str []) (Json.str []) (Json.arr []) (Json.arr [])
      (Json.arr []) [] c7resp c7kvs c7ts c7bs rfl rfl rfl rfl rfl rfl rfl rfl rfl rfl).2
      rfl rfl⟩⟩

/-- C8: per successful stage execution, the Generator is called exactly
once and the Retriever a fixed number of times: none by Parse-JD, once by
Skill-Gap with `k = 5` and the query seeded with the first five required
skills, twice by Cover-Letter (an experience query and a separate
contact-info query), once by Email (contact info), and none by
Interview-Prep. -/
theorem c8_stage_capability_calls :
    (∀ caps s s' t, parse_jd_node caps s = .ok (s', t) →
      t = [.generate (.parseJD s.job_description)]) ∧
    (∀ caps s s' t, skill_gap_node caps s = .ok (s', t) →
      ∃ rs q g, dictGet s.parsed_jd (txt "skills_required") (Json.arr []) = .ok rs ∧
        skill_gap_query rs = .ok q ∧
        t = [.retrieve q 5, .generate g]) ∧
    (∀ caps s s' t, cover_letter_node caps s = .ok (s', t) →
      ∃ jtq g, dictGet s.parsed_jd (txt "job_title") (Json.str []) = .ok jtq ∧
        t = [ .retrieve (pyStr jtq ++ txt " experience projects achievements") 5,
              .retrieve (txt "name address phone email contact location") 5,
              .generate g ]) ∧
    (∀ caps s s' t, email_node caps s = .ok (s', t) →
      ∃ g, t = [.retrieve (txt "name address phone email contact") 5, .generate g]) ∧
    (∀ caps s s' t, interview_prep_node caps s = .ok (s', t) →
      ∃ g, t = [.generate g]) := by
  refine ⟨?_, ?_, ?_, ?_, ?_⟩
  · intro caps s s' t h
    obtain ⟨c, _, _, rfl⟩ := parse_jd_node_shape caps s s' t h
    rfl
  · intro caps s s' t h
    obtain ⟨rs, q, ctx, c, m, mi, sc, hrs, hq, _, _, _, _, _, _, rfl⟩ :=
      skill_gap_node_shape caps s s' t h
    exact ⟨rs, q, _, hrs, hq, rfl⟩
  · intro caps s s' t h
    obtain ⟨jtq, rc, cc, jt, co, mj, msj, c, hjtq, _, _, _, _, _, _, _, _, rfl⟩ :=
      cover_letter_node_shape caps s s' t h
    exact ⟨jtq, _, hjtq, rfl⟩
  · intro caps s s' t h
    obtain ⟨cc, jt, co, sl, sj, c, _, _, _, _, _, _, _, rfl⟩ :=
      email_node_shape caps s s' t h
    exact ⟨_, rfl⟩
  · intro caps s s' t h
    obtain ⟨jt, co, re, rs2, ms, mj, c, te, be, al, ti, _, _, _, _, _, _, _, _, _, _, _, _, rfl⟩ :=
      interview_prep_node_shape caps s s' t h
    exact ⟨_, rfl⟩

/-- Witness for C8 at the concrete capability set `wCaps`. -/
theorem c8_witness :
    (parse_jd_node wCaps w0 = .ok (w1, wtr1) ∧
      wtr1 = [.generate (.parseJD w0.job_description)]) ∧
    (skill_gap_node wCaps w1 = .ok (w2, wtr2) ∧
      ∃ rs q g, dictGet w1.parsed_jd (txt "skills_required") (Json.arr []) = .ok rs ∧
        skill_gap_query rs = .ok q ∧ wtr2 = [.retrieve q 5, .generate g]) ∧
    (cover_letter_node wCaps w2 = .ok (w3, wtr3) ∧
      ∃ jtq g, dictGet w2.parsed_jd (txt "job_title") (Json.str []) = .ok jtq ∧
        wtr3 = [ .retrieve (pyStr jtq ++ txt " experience projects achievements") 5,
                 .retrieve (txt "name address phone email contact location") 5,
                 .generate g ]) ∧
    (email_node wCaps w3 = .ok (w4, wtr4) ∧
      ∃ g, wtr4 = [.retrieve (txt "name address phone email contact") 5, .generate g]) ∧
    (interview_prep_node wCaps w4 = .ok (w5, wtr5) ∧ ∃ g, wtr5 = [.generate g]) :=
  ⟨⟨rfl, c8_stage_capability_calls.1 wCaps w0 w1 wtr1 rfl⟩,
   ⟨rfl, c8_stage_capability_calls.2.1 wCaps w1 w2 wtr2 rfl⟩,
   ⟨rfl, c8_stage_capability_calls.2.2.1 wCaps w2 w3 wtr3 rfl⟩,
   ⟨rfl, c8_stage_capability_calls.2.2.2.1 wCaps w3 w4 wtr4 rfl⟩,
   ⟨rfl, c8_stage_capability_calls.2.2.2.2 wCaps w4 w5 wtr5 rfl⟩⟩

/-- C9: whenever a run completes normally, the `error` field of the
returned record is still `None` (no stage ever writes it), so the
caller-side branch in `routes.py` that converts a truthy `error` into an
HTTP failure can never fire after a completed run. -/
theorem c9_completed_run_has_no_error (caps : Caps) (jd rt : Text)
    (r : GraphState) (t : List CapCall)
    (h : run_pipeline caps jd rt = .ok (r, t)) :
    r.error = Json.null ∧ jsonTruthy r.error = false := by
  have hc := run_pipeline_eq_chained caps jd rt
  rw [h] at hc
  unfold chained_run at hc
  rcases h1 : parse_jd_node caps (initial_state jd rt) with e | ⟨s1, t1⟩ <;> rw [h1] at hc
  · exact Except.noConfusion hc
  simp only [] at hc
  rcases h2 : skill_gap_node caps s1 with e | ⟨s2, t2⟩ <;> rw [h2] at hc
  · exact Except.noConfusion hc
  simp only [] at hc
  rcases h3 : cover_letter_node caps s2 with e | ⟨s3, t3⟩ <;> rw [h3] at hc
  · exact Except.noConfusion hc
  simp only [] at hc
  rcases h4 : email_node caps s3 with e | ⟨s4, t4⟩ <;> rw [h4] at hc
  · exact Except.noConfusion hc
  simp only [] at hc
  rcases h5 : interview_prep_node caps s4 with e | ⟨s5, t5⟩ <;> rw [h5] at hc
  · exact Except.noConfusion hc
  have hr : r = s5 := (congrArg Prod.fst (Except.ok.inj hc))
  obtain ⟨c1, _, rfl, _⟩ := parse_jd_node_shape caps _ _ _ h1
  obtain ⟨rs, q, ctx, c2, m, mi, sc, _, _, _, _, _, _, _, rfl, _⟩ :=
    skill_gap_node_shape caps _ _ _ h2
  obtain ⟨jtq, rc, cc, jt, co, mj, msj, c3, _, _, _, _, _, _, _, _, rfl, _⟩ :=
    cover_letter_node_shape caps _ _ _ h3
  obtain ⟨cc4, jt4, co4, sl, sj, c4, _, _, _, _, _, _, rfl, _⟩ :=
    email_node_shape caps _ _ _ h4
  obtain ⟨jt5, co5, re, rs5, ms, mj5, c5, te, be, al, ti, _, _, _, _, _, _, _, _, _, _, _, rfl, _⟩ :=
    interview_prep_node_shape caps _ _ _ h5
  subst hr
  exact ⟨rfl, rfl⟩

/-- Witness for C9 at the concrete capability set `wCaps`. -/
theorem c9_witness :
    run_pipeline wCaps (txt "jd") [] = .ok (w5, wtrAll) ∧
    w5.error = Json.null ∧ jsonTruthy w5.error = false :=
  ⟨rfl, c9_completed_run_has_no_error wCaps (txt "jd") [] w5 wtrAll rfl⟩

/-- C10: when the Skill-Gap response parses successfully to a JSON object
that lacks the expected keys, the stage writes the per-key defensive
defaults `matched_skills = []`, `missing_skills = []` (empty, not the full
required-skills list) and `match_score = 0`; the worst-case fallback of C3
applies only when parsing fails entirely. -/
theorem c10_theorem (caps : Caps) (s : GraphState) (rs : Json) (q ctx content : Text)
    (kvs : List (Text × Json))
    (hsk : dictGet s.parsed_jd (txt "skills_required") (Json.arr []) = .ok rs)
    (hq : skill_gap_query rs = .ok q)
    (hret : caps.retrieve_resume_context q 5 = .ok ctx)
    (hgen : caps.generate (.skillGap rs ctx) = .ok content)
    (hparse : json_loads (normalize content) = some (Json.obj kvs))
    (hm : objLookup kvs (txt "matched_skills") = none)
    (hmi : objLookup kvs (txt "missing_skills") = none)
    (hsc : objLookup kvs (txt "match_score") = none) :
    skill_gap_node caps s =
      .ok ({ s with
              matched_skills := Json.arr [],
              missing_skills := Json.arr [],
              match_score := Json.num (txt "0"),
              current_step := txt "skills_analyzed" },
           [.retrieve q 5, .generate (.skillGap rs ctx)]) := by
  unfold skill_gap_node
  rw [hsk]
  simp only []
  rw [hq]
  simp only []
  rw [hret]
  simp only []
  rw [hgen]
  simp only [hparse, Option.getD_some, dictGet, hm, hmi, hsc, Option.getD_none]

/-- Witness for C10 at the concrete empty-object response of `wCaps`. -/
theorem c10_witness :
    dictGet w1.parsed_jd (txt "skills_required") (Json.arr []) = .ok (Json.arr []) ∧
    json_loads (normalize (txt "\x7b\x7d")) = some (Json.obj []) ∧
    objLookup ([] : List (Text × Json)) (txt "missing_skills") = none ∧
    skill_gap_node wCaps w1 =
      .ok ({ w1 with
              matched_skills := Json.arr [],
              missing_skills := Json.arr [],
              match_score := Json.num (txt "0"),
              current_step := txt "skills_analyzed" },
           [.retrieve (txt "skills experience ") 5, .generate (.skillGap (Json.arr []) [])]) := by
  refine ⟨rfl, rfl, rfl, ?_⟩
  exact c10_theorem wCaps w1 (Json.arr []) (txt "skills experience ") [] (txt "\x7b\x7d") []
    rfl rfl rfl rfl rfl rfl rfl rfl

end JobCopilot
